import Mathlib

/-!
# Verification of the DBC generator against its specification

Shallow embedding of the two DBC generator implementations of this
repository (`src/dbc_generator.py`, referred to as the *legacy* generator,
and `src/core/dbc_generator.py` together with `src/core/excel_handler.py`,
referred to as the *core* generator), followed by theorems settling the
specification claims.

Modelling conventions:
* A spreadsheet cell is `Option String`: `none` models a pandas `NaN`
  (missing/empty) cell, `some s` a present cell rendered as the string `s`
  (cell payloads are modelled by their string rendering).
* A row is an association list from column label to present-cell text; a
  label absent from the list models a `NaN` cell of that column.
* Python string operations (`strip`, `lower`, `split`, `in`, …) are given
  executable character-list implementations below, so that every concrete
  instance evaluates inside the kernel.
* Python numeric literals in cells are parsed by executable parsers below
  covering the sign/digits/decimal-point fragment of Python `int()` and
  `float()` (sufficient for matrix cells; the spreadsheets this tool
  consumes do not use exponents).
* Python floats are idealised as exact rationals; `"%.3f"` formatting is
  modelled as round-half-to-even at three decimals, which agrees with the
  IEEE behaviour on every value the claims mention.
-/

namespace DBCGen

/-! ## Python-string primitives (kernel-executable) -/

/-- Is `needle` a contiguous run inside `hay`? -/
def listIsInfix (needle hay : List Char) : Bool :=
  match hay with
  | [] => needle.isEmpty
  | _ :: t => needle.isPrefixOf hay || listIsInfix needle t

/-- Python `pat in s` (substring test). -/
def pyContains (s pat : String) : Bool :=
  listIsInfix pat.data s.data

/-- Python `s.startswith(pat)`. -/
def pyStarts (s pat : String) : Bool :=
  pat.data.isPrefixOf s.data

/-- Python `s.endswith(pat)`. -/
def pyEnds (s pat : String) : Bool :=
  pat.data.reverse.isPrefixOf s.data.reverse

/-- Python `str.strip()`: drop leading and trailing whitespace. -/
def pyStrip (s : String) : String :=
  String.mk (((s.data.dropWhile Char.isWhitespace).reverse.dropWhile Char.isWhitespace).reverse)

/-- Python `str.lower()` (ASCII case folding; other characters are kept). -/
def pyLower (s : String) : String :=
  String.mk (s.data.map Char.toLower)

/-- Python `str.upper()` (ASCII case folding; other characters are kept). -/
def pyUpper (s : String) : String :=
  String.mk (s.data.map Char.toUpper)

/-- Python `str.split('_')` (all the splits this program performs use the
single separator `_`). -/
def splitUnderscoreChars : List Char → List (List Char)
  | [] => [[]]
  | c :: rest =>
    match splitUnderscoreChars rest with
    | g :: gs => if c = '_' then [] :: g :: gs else (c :: g) :: gs
    | [] => [[c]]

/-- `str.split('_')` as strings. -/
def pySplitU (s : String) : List String :=
  (splitUnderscoreChars s.data).map String.mk

/-- `'_'.join(parts)` (and, generally, `sep.join`). -/
def joinSep (sep : String) : List String → String
  | [] => ""
  | [x] => x
  | x :: xs => x ++ sep ++ joinSep sep xs

/-- Python `str.isalpha` restricted to ASCII letters (the column labels the
classifier distinguishes are ASCII). -/
def pyIsAlpha (s : String) : Bool :=
  !s.isEmpty && s.data.all fun c => c.isAlpha

/-- Python `str.isupper` on an alphabetic ASCII string: nonempty and every
letter upper-case.  (Python demands at least one cased character and all
cased characters upper; on ASCII-alphabetic strings that is this.) -/
def pyIsUpper (s : String) : Bool :=
  !s.isEmpty && s.data.all fun c => c.isUpper

/-- Python `str.isdigit` (ASCII digits, nonempty). -/
def pyIsDigit (s : String) : Bool :=
  !s.isEmpty && s.data.all fun c => c.isDigit

/-- Digit value of an ASCII decimal digit (code point 48 is `0`). -/
def decDigit? (c : Char) : Option Nat :=
  if c.isDigit then some (c.toNat - 48) else none

/-- Digit value of a hexadecimal letter digit (code points 97/65 are
`a`/`A`). -/
def hexLetterVal (c : Char) : Option Nat :=
  if 'a' ≤ c && c ≤ 'f' then some (10 + (c.toNat - 97))
  else if 'A' ≤ c && c ≤ 'F' then some (10 + (c.toNat - 65))
  else none

/-- Digit value of an ASCII hexadecimal digit. -/
def hexDigit? (c : Char) : Option Nat :=
  (decDigit? c).orElse fun _ => hexLetterVal c

/-- Accumulate a digit list in a given base; `none` when a character is not
a digit or the digit list is empty (Python `int` raises `ValueError`). -/
def natOfDigits (base : Nat) (digit? : Char → Option Nat) : List Char → Option Nat
  | [] => none
  | cs => cs.foldl (fun acc c => acc.bind fun n => (digit? c).map fun d => n * base + d) (some 0)

/-- Split a leading sign off a character list; `true` means negative.
Python `int`/`float` accept one optional `+`/`-`. -/
def splitSign : List Char → Bool × List Char
  | '-' :: cs => (true, cs)
  | '+' :: cs => (false, cs)
  | cs => (false, cs)

/-- Apply a parsed sign to a magnitude. -/
def applySign (neg : Bool) (n : Nat) : Int :=
  if neg then -(n : Int) else (n : Int)

/-- Python `int(s)` (base 10) on the sign+digits fragment. -/
def pyIntBase10 (s : String) : Option Int :=
  let (neg, cs) := splitSign (pyStrip s).data
  (natOfDigits 10 decDigit? cs).map fun n => applySign neg n

/-- Python `int(s, 16)`: optional sign, optional `0x`/`0X`, hex digits. -/
def pyIntBase16 (s : String) : Option Int :=
  let (neg, cs) := splitSign (pyStrip s).data
  let cs := match cs with
    | '0' :: 'x' :: rest => rest
    | '0' :: 'X' :: rest => rest
    | rest => rest
  (natOfDigits 16 hexDigit? cs).map fun n => applySign neg n

/-- Python `float(s)` on the sign / integer part / optional `.` /
fractional part fragment (at least one digit required overall). -/
def pyFloat (s : String) : Option ℚ :=
  let (neg, cs) := splitSign (pyStrip s).data
  let (ip, rest) := cs.span fun c => decDigit? c |>.isSome
  match rest with
  | [] =>
    (natOfDigits 10 decDigit? ip).map fun n => mkRat (applySign neg n) 1
  | '.' :: fp =>
    if fp.all fun c => (decDigit? c).isSome then
      if ip.isEmpty && fp.isEmpty then none
      else
        let ipv := (natOfDigits 10 decDigit? ip).getD 0
        let fpv := (natOfDigits 10 decDigit? fp).getD 0
        let mag := ipv * 10 ^ fp.length + fpv
        some (mkRat (applySign neg mag) (10 ^ fp.length))
    else none
  | _ => none

/-- Python `int(x)` on a float: truncation toward zero. -/
def truncQ (q : ℚ) : Int :=
  Int.tdiv q.num q.den

/-- Upper-case hexadecimal rendering of a natural number (Python `f"{n:X}"`). -/
def hexRepr (n : Nat) : String :=
  String.mk (Nat.toDigits 16 n |>.map fun c => c.toUpper)

/-- `f"{n:X}"` for a possibly negative integer. -/
def hexReprInt (n : Int) : String :=
  (if n < 0 then "-" else "") ++ hexRepr n.natAbs

/-- Strip trailing copies of one character (Python `str.rstrip(c)`). -/
def rstrip (s : String) (c : Char) : String :=
  String.mk ((s.data.reverse.dropWhile fun d => d = c).reverse)

/-- Number of characters after the last decimal point of a rendered
numeral — its count of decimal digits (0 when there is no point). -/
def fracDigitCount (s : String) : Nat :=
  if s.data.contains '.' then (s.data.reverse.takeWhile fun c => c ≠ '.').length else 0

/-- Does the string end in the given character? -/
def endsInChar (s : String) (c : Char) : Bool :=
  match s.data.reverse with
  | [] => false
  | d :: _ => d = c

/-- Lexicographic (code-point) order on strings, Python `<=` for `sorted`. -/
def charListLe : List Char → List Char → Bool
  | [], _ => true
  | _ :: _, [] => false
  | a :: as, b :: bs => if a < b then true else if b < a then false else charListLe as bs

/-- Insert into a sorted list (stable). -/
def insertSorted (a : String) : List String → List String
  | [] => [a]
  | b :: bs => if charListLe a.data b.data then a :: b :: bs else b :: insertSorted a bs

/-- Python `sorted` on strings (insertion sort — stable, total order, so it
agrees with the library sort). -/
def sortStrings (l : List String) : List String :=
  l.foldr insertSorted []

/-! ## Data model: cells and rows -/

/-- A cell: `none` models a pandas `NaN`, `some s` a present cell text. -/
abbrev Cell := Option String

/-- A spreadsheet row: association list column label ↦ present cell text. -/
abbrev Row := List (String × String)

/-- Look a column up in a row (`row[col]` / `row.get(col)` followed by the
`pd.isna` test): `none` models a `NaN` or absent cell; the first binding
of a label wins. -/
def Row.get? : Row → String → Option String
  | [], _ => none
  | p :: r, c => if p.1 = c then some p.2 else Row.get? r c

/-- Overwrite (or insert) one cell of a row (the new binding shadows any
older one). -/
def Row.set (r : Row) (c v : String) : Row :=
  (c, v) :: r

/-- Python `str(row.get(col, ''))` for a column known to be in the frame's
index: a `NaN` cell renders as the string `"nan"`. -/
def strOfCell : Cell → String
  | some v => v
  | none => "nan"

/-! ## Node-indicator column classification

Three definitions: the rule of the legacy generator
(`src/dbc_generator.py`, `load_matrix`), the rule of the core handler
(`src/core/excel_handler.py`, `extract_node_columns`), and the rule in the
specification's words, for comparison. -/

namespace Legacy

/-- Loop body of `load_matrix` classifying one column label as a node
indicator column: contains `_`, suffix (after the last `_`) alphabetic and
upper-case, the joined front part does not start with `LV`, and the whole
(stripped) label does not end with `EV`. -/
def isNodeColumn (col : String) : Bool :=
  let s := pyStrip col
  if pyContains s "_" then
    let parts := pySplitU s
    let suf := parts.getLastD ""
    let pre := joinSep "_" parts.dropLast
    if pyIsAlpha suf && pyIsUpper suf then
      !pyStarts pre "LV" && !pyEnds s "EV"
    else false
  else false

/-- `DBCGenerator._format_message_id`: strip and upper-case the raw id; if
it already starts with `0X` keep it, otherwise put `0x` in front of it. -/
def formatMessageId (messageId : String) : String :=
  let s := pyUpper (pyStrip messageId)
  if pyStarts s "0X" then s else "0x" ++ s

/-- Decimal value emitted for a message id by `generate_dbc`
(`msg_id_dec = int(msg_info['id'], 16)` on the formatted id); `none`
models the `ValueError` that makes the whole generation fail. -/
def msgIdDec (messageId : String) : Option Int :=
  pyIntBase16 (formatMessageId messageId)

/-- Sender resolution loop of `_extract_message_info`: the first node
column whose cell in this row is exactly `Tx`, else the `'Unknown'`
sentinel. -/
def sender (nodeCols : List String) (row : Row) : String :=
  match nodeCols.find? fun col => row.get? col = some "Tx" with
  | some col => col
  | none => "Unknown"

/-- `generate_dbc` line 481: the `'Unknown'` sentinel is emitted as the
default marker node `Vector__XXX`. -/
def emittedSender (nodeCols : List String) (row : Row) : String :=
  let s := sender nodeCols row
  if s ≠ "Unknown" then s else "Vector__XXX"

/-- Start-byte column label used by the legacy `_extract_signal_info`. -/
def startByteLabel : String := "Start Byte\n起始字节"

/-- Start-bit column label used by the legacy `_extract_signal_info`. -/
def startBitLabel : String := "Start Bit\n起始位"

/-- Byte-order column label used by the legacy `_extract_signal_info`. -/
def byteOrderLabel : String := "Byte Order\n排列格式"

/-- `int(row[...]) if pd.notna(...) else 0` of the legacy signal
extraction: a `NaN` cell counts as 0; an unparsable present cell raises
(`none`), aborting the run. -/
def cellInt (c : Cell) : Option Int :=
  match c with
  | none => some 0
  | some v => pyIntBase10 v

/-- Lines 334–338 of `_extract_signal_info`: the absolute (Intel) start
bit `start_byte * 8 + start_bit`.  The declared byte order column is not
read here. -/
def intelStartBit (row : Row) : Option Int :=
  (cellInt (row.get? startByteLabel)).bind fun startByte =>
    (cellInt (row.get? startBitLabel)).map fun startBit =>
      startByte * 8 + startBit

/-- Round `n / d` (for `d > 0`) to a whole number, half to even: the
idealised semantics of the rounding Python `f"{num:.3f}"` performs, in
integer arithmetic. -/
def roundHalfEven (n d : Int) : Int :=
  let f := Int.fdiv n d
  let r := n - f * d
  if 2 * r > d then f + 1
  else if 2 * r < d then f
  else if f % 2 = 0 then f else f + 1

/-- Left-pad a numeral with zeros to three characters. -/
def pad3 (n : Nat) : String :=
  let s := toString n
  if s.length ≥ 3 then s else String.mk (List.replicate (3 - s.length) '0') ++ s

/-- `f"{num:.3f}"`: fixed three-decimals rendering of a rational. -/
def fixed3 (q : ℚ) : String :=
  let sgn := if q.num < 0 then "-" else ""
  let m := (roundHalfEven (q.num.natAbs * 1000) q.den).toNat
  sgn ++ toString (m / 1000) ++ "." ++ pad3 (m % 1000)

/-- `format_num` of `generate_dbc`: an integral value renders as its
integer, otherwise three decimals with trailing zeros and a trailing
point stripped. -/
def formatNum (q : ℚ) : String :=
  if q.den = 1 then toString q.num
  else rstrip (rstrip (fixed3 q) '0') '.'

/-- First pass of the newline normalisation:
`content.replace('\r\n', '\n')` (left-to-right, non-overlapping). -/
def replaceCRLF : List Char → List Char
  | '\r' :: '\n' :: rest => '\n' :: replaceCRLF rest
  | c :: rest => c :: replaceCRLF rest
  | [] => []

/-- Second pass: `content.replace('\r', '\n')`. -/
def replaceCR (cs : List Char) : List Char :=
  cs.map fun c => if c = '\r' then '\n' else c

/-- The two `.replace` calls of `generate_dbc` normalising line endings. -/
def normalizeNewlines (s : String) : String :=
  String.mk (replaceCR (replaceCRLF s.data))

/-- `ensure_ascii` of `generate_dbc`: keep ASCII characters, transliterate
`Ω` (U+03A9) to `Ohm`, drop every other non-ASCII character. -/
def ensureAscii (s : String) : String :=
  String.mk (s.data.flatMap fun c =>
    if c.toNat < 128 then [c]
    else if c = 'Ω' then ['O', 'h', 'm']
    else [])

/-- The whole-artifact post-processing the legacy generator applies right
before writing: newline normalisation, then ASCII sanitisation. -/
def postProcess (s : String) : String :=
  ensureAscii (normalizeNewlines s)

/-- The legacy `BO_` line (`generate_dbc` lines 478–484) for one message:
`none` models the `ValueError` on an id that does not parse in base 16,
which aborts the generation run. -/
def boLine (msgName : String) (rawId : String) (dlc : Int) (nodeCols : List String)
    (headerRow : Row) : Option String :=
  (msgIdDec rawId).map fun idDec =>
    "BO_ " ++ toString idDec ++ " " ++ msgName ++ ": " ++ toString dlc ++ " " ++
      emittedSender nodeCols headerRow

end Legacy

namespace Core

/-- Loop body of `ExcelHandler.extract_node_columns`: same shape as the
legacy rule, but the exclusion is
`not (prefix.startswith('LV') or prefix.endswith('EV'))` — the `EV` test
is applied to the *front part*, not to the full label. -/
def isNodeColumn (col : String) : Bool :=
  let s := pyStrip col
  if pyContains s "_" then
    let parts := pySplitU s
    let suf := parts.getLastD ""
    let pre := joinSep "_" parts.dropLast
    if pyIsAlpha suf && pyIsUpper suf then
      !(pyStarts pre "LV" || pyEnds pre "EV")
    else false
  else false

/-! ### Column resolution (`_extract_messages` / `_extract_signals`) -/

/-- Message-id column search: first label containing `ID` and one of
`Msg` / `报文`. -/
def findMessageIdCol (cols : List String) : Option String :=
  cols.find? fun c => pyContains c "ID" && (pyContains c "Msg" || pyContains c "报文")

/-- Message-name column search. -/
def findMessageNameCol (cols : List String) : Option String :=
  cols.find? fun c => (pyContains c "Name" && pyContains c "Msg") || pyContains c "报文名称"

/-- DLC column search. -/
def findDlcCol (cols : List String) : Option String :=
  cols.find? fun c => (pyContains c "Length" && pyContains c "Msg") || pyContains c "报文长度"

/-- Signal-name column search (lower-cased label). -/
def findSignalNameCol (cols : List String) : Option String :=
  cols.find? fun c =>
    let l := pyLower c
    pyContains l "signal" && (pyContains l "name" || pyContains l "名称")

/-- The signal attribute columns resolved by the single `for`/`elif` chain
of `_extract_signals`; `none` = unmapped. -/
structure SigCols where
  startBit : Option String
  startByte : Option String
  length : Option String
  byteOrder : Option String
  valueType : Option String
  factor : Option String
  offset : Option String
  unit : Option String
  minV : Option String
  maxV : Option String

/-- All signal attribute columns unmapped. -/
def SigCols.empty : SigCols :=
  ⟨none, none, none, none, none, none, none, none, none, none⟩

/-- One step of the `elif` chain: the first matching branch claims the
column for its role; a later column matching the same branch overwrites
the earlier one (no `break` in the source loop). -/
def resolveStep (acc : SigCols) (col : String) : SigCols :=
  let l := pyLower col
  if pyContains l "start bit" || pyContains l "起始位" then { acc with startBit := some col }
  else if pyContains l "start byte" || pyContains l "起始字节" then { acc with startByte := some col }
  else if pyContains l "bit length" || pyContains l "信号长度" then { acc with length := some col }
  else if pyContains l "byte order" || pyContains l "排列格式" then { acc with byteOrder := some col }
  else if pyContains l "date type" || pyContains l "数据类型" then { acc with valueType := some col }
  else if pyContains l "factor" || pyContains l "比例因子" then { acc with factor := some col }
  else if pyContains l "offset" || pyContains l "偏移量" then { acc with offset := some col }
  else if pyContains l "unit" then { acc with unit := some col }
  else if pyContains l "min" || pyContains l "最小值" then { acc with minV := some col }
  else if pyContains l "max" || pyContains l "最大值" then { acc with maxV := some col }
  else acc

/-- Resolve the signal attribute columns from the header labels. -/
def resolveSigCols (cols : List String) : SigCols :=
  cols.foldl resolveStep SigCols.empty

/-! ### Message extraction (`_extract_messages`) -/

/-- Message-id parsing of `_extract_messages`: a `0x`-string yields its
canonical decimal rendering plus the original hex text; any other string
must parse in base 10 and is kept **verbatim** as the emitted decimal id.
`none` models the `ValueError` branch that skips the row. -/
def parseIdPair (messageId : String) : Option (String × String) :=
  if pyStarts messageId "0x" || pyStarts messageId "0X" then
    (pyIntBase16 messageId).map fun n => (toString n, messageId)
  else
    (pyIntBase10 messageId).map fun n => (messageId, "0x" ++ hexReprInt n)

/-- One message as assembled by `_extract_messages`. -/
structure Message where
  id : String
  hexId : String
  name : String
  dlc : String
  sender : String
deriving DecidableEq, Repr

/-- The DLC cell handling: keep the stripped cell verbatim when it is all
digits and at most 15, else the default `"8"`. -/
def dlcOfRow (dlcCol : Option String) (row : Row) : String :=
  match dlcCol with
  | none => "8"
  | some c =>
    match row.get? c with
    | none => "8"
    | some dv =>
      let ds := pyStrip dv
      if pyIsDigit ds then
        if (natOfDigits 10 decDigit? ds.data).getD 0 ≤ 15 then ds else "8"
      else "8"

/-- Row step of `_extract_messages`.  The sender is hard-coded to
`Vector__XXX` (source line 318); the `Tx` indicators are never read. -/
def messagesStep (idCol : String) (nameCol dlcCol : Option String)
    (acc : List (String × Message)) (row : Row) : List (String × Message) :=
  match row.get? idCol with
  | none => acc
  | some v =>
    let messageId := pyStrip v
    if messageId = "" then acc
    else
      match parseIdPair messageId with
      | none => acc
      | some (dec, hex) =>
        let name0 := match nameCol with
          | some c => pyStrip (strOfCell (row.get? c))
          | none => ""
        let name := if name0 = "" then "MSG_" ++ hex else name0
        let dlc := dlcOfRow dlcCol row
        if acc.any fun p => p.1 = dec then acc
        else acc ++ [(dec, ⟨dec, hex, name, dlc, "Vector__XXX"⟩)]

/-- `_extract_messages`: insertion-ordered dictionary keyed by the decimal
id string (first occurrence wins). -/
def extractMessages (cols : List String) (rows : List Row) : List (String × Message) :=
  match findMessageIdCol cols with
  | none => []
  | some idCol => rows.foldl (messagesStep idCol (findMessageNameCol cols) (findDlcCol cols)) []

/-! ### Signal extraction (`_extract_signals`) -/

/-- One signal as assembled by `_extract_signals` (all fields strings, as
in the source dictionary). -/
structure Signal where
  name : String
  startBit : String
  length : String
  byteOrder : String
  valueType : String
  factor : String
  offset : String
  minV : String
  maxV : String
  unit : String
  receiver : String
deriving DecidableEq, Repr

/-- Message-id parsing of `_extract_signals`: unlike `_extract_messages`,
the decimal branch canonicalises through `str(int(s))`; `none` models the
`ValueError` branch, which sets `current_msg_id = None`. -/
def parseSigMsgId (s : String) : Option String :=
  if pyStarts s "0x" || pyStarts s "0X" then (pyIntBase16 s).map toString
  else (pyIntBase10 s).map toString

/-- `row.get(col, 0)`: when the role is unmapped (`col is None`) pandas
returns the integer default `0` (modelled as the cell text `"0"`); when
the role is mapped, the cell itself (`none` = `NaN`). -/
def getD0 (row : Row) (c : Option String) : Option String :=
  match c with
  | none => some "0"
  | some col => row.get? col

/-- Byte-order field: `Intel` on `intel` / `little endian` / `little`
(case-insensitive), else the default `Motorola`. -/
def sigByteOrder (cfg : SigCols) (row : Row) : String :=
  match cfg.byteOrder with
  | none => "Motorola"
  | some c =>
    match row.get? c with
    | none => "Motorola"
    | some v =>
      let v := pyLower (pyStrip v)
      if v = "intel" || v = "little endian" || v = "little" then "Intel" else "Motorola"

/-- Length field: `int(float(cell))` when positive, else the default `8`. -/
def sigLength (cfg : SigCols) (row : Row) : String :=
  match cfg.length with
  | none => "8"
  | some c =>
    match row.get? c with
    | none => "8"
    | some v =>
      match pyFloat v with
      | none => "8"
      | some q => if truncQ q > 0 then toString (truncQ q) else "8"

/-- Value-type field: `Unsigned` on `unsigned`/`无符号`, else `Signed`;
default `Unsigned`. -/
def sigValueType (cfg : SigCols) (row : Row) : String :=
  match cfg.valueType with
  | none => "Unsigned"
  | some c =>
    match row.get? c with
    | none => "Unsigned"
    | some v =>
      let v := pyLower (pyStrip v)
      if v = "unsigned" || v = "无符号" then "Unsigned" else "Signed"

/-- The absolute start bit (`actual_start_bit`): when neither component is
`NaN`, `int(float(start_byte)) * 8 + int(float(start_bit))`; a component
whose column is unmapped reads as the pandas default `0`, and a
`ValueError` (or a `NaN` component) leaves the initial value `0`.  The
declared byte order is not consulted. -/
def sigStartBitVal (cfg : SigCols) (row : Row) : Int :=
  match getD0 row cfg.startByte, getD0 row cfg.startBit with
  | some bv, some sv =>
    match pyFloat bv, pyFloat sv with
    | some qb, some qs => truncQ qb * 8 + truncQ qs
    | _, _ => 0
  | _, _ => 0

/-- Number of decimal digits needed for an exact rendering of a fraction
with denominator `d` (least `k ≤ 63` with `d ∣ 10 ^ k`). -/
def decExp (d : Nat) : Nat :=
  (((List.range 64).find? fun k => 10 ^ k % d = 0)).getD 0

/-- Zero-pad a numeral on the left to `k` characters. -/
def padZeros (k : Nat) (n : Nat) : String :=
  let s := toString n
  if s.length ≥ k then s else String.mk (List.replicate (k - s.length) '0') ++ s

/-- Python `str(float(x))` on a decimal-fraction rational: shortest exact
decimal rendering, with at least one digit after the point (`1 ↦ "1.0"`,
`1/10 ↦ "0.1"`). -/
def pyFloatRepr (q : ℚ) : String :=
  let sgn := if q.num < 0 then "-" else ""
  let k := max 1 (decExp q.den)
  let m := q.num.natAbs * (10 ^ k / q.den)
  sgn ++ toString (m / 10 ^ k) ++ "." ++ padZeros k (m % 10 ^ k)

/-- Factor field: `str(float(cell))` when it parses, else the default `1.0`. -/
def sigFactor (cfg : SigCols) (row : Row) : String :=
  match cfg.factor with
  | none => "1.0"
  | some c =>
    match row.get? c with
    | none => "1.0"
    | some v =>
      match pyFloat v with
      | none => "1.0"
      | some q => pyFloatRepr q

/-- Offset field: default `0.0`. -/
def sigOffset (cfg : SigCols) (row : Row) : String :=
  match cfg.offset with
  | none => "0.0"
  | some c =>
    match row.get? c with
    | none => "0.0"
    | some v =>
      match pyFloat v with
      | none => "0.0"
      | some q => pyFloatRepr q

/-- Minimum field: default `0`. -/
def sigMin (cfg : SigCols) (row : Row) : String :=
  match cfg.minV with
  | none => "0"
  | some c =>
    match row.get? c with
    | none => "0"
    | some v =>
      match pyFloat v with
      | none => "0"
      | some q => pyFloatRepr q

/-- Maximum field: default `0`. -/
def sigMax (cfg : SigCols) (row : Row) : String :=
  match cfg.maxV with
  | none => "0"
  | some c =>
    match row.get? c with
    | none => "0"
    | some v =>
      match pyFloat v with
      | none => "0"
      | some q => pyFloatRepr q

/-- Unit field: stripped cell text, default the empty string. -/
def sigUnit (cfg : SigCols) (row : Row) : String :=
  match cfg.unit with
  | none => ""
  | some c =>
    match row.get? c with
    | none => ""
    | some v => pyStrip v

/-- The signal dictionary built for one signal row
(`_extract_signals` lines 584–597); receiver hard-coded `Vector__XXX`. -/
def buildSignal (cfg : SigCols) (row : Row) (name : String) : Signal :=
  { name := name
    startBit := toString (sigStartBitVal cfg row)
    length := sigLength cfg row
    byteOrder := sigByteOrder cfg row
    valueType := sigValueType cfg row
    factor := sigFactor cfg row
    offset := sigOffset cfg row
    minV := sigMin cfg row
    maxV := sigMax cfg row
    unit := sigUnit cfg row
    receiver := "Vector__XXX" }

/-- State-machine step of `_extract_signals` over one row.  State = the
current message id (`current_msg_id`).  A non-empty id cell updates the
state — to `none` on a `ValueError` —; an id-less row with a signal name
appends a signal under the current id, if any. -/
def sigStep (cfg : SigCols) (idCol sigNameCol : String)
    (st : Option String × List (String × Signal)) (row : Row) :
    Option String × List (String × Signal) :=
  match row.get? idCol with
  | some v =>
    let s := pyStrip v
    if s = "" then st
    else (parseSigMsgId s, st.2)
  | none =>
    match st.1 with
    | none => st
    | some cur =>
      match row.get? sigNameCol with
      | none => st
      | some nv =>
        let name := pyStrip nv
        if name = "" then st
        else (st.1, st.2 ++ [(cur, buildSignal cfg row name)])

/-- Full traversal of `_extract_signals`, with the final state. -/
def extractSignalsFold (cols : List String) (rows : List Row) :
    Option String × List (String × Signal) :=
  match findMessageIdCol cols, findSignalNameCol cols with
  | some idCol, some nameCol =>
    rows.foldl (sigStep (resolveSigCols cols) idCol nameCol) (none, [])
  | _, _ => (none, [])

/-- The signal groups returned by `_extract_signals` (flattened dictionary:
key order and per-key order both follow insertion order). -/
def extractSignals (cols : List String) (rows : List Row) : List (String × Signal) :=
  (extractSignalsFold cols rows).2

/-- The per-message signal list (`signals[msg_id]`). -/
def signalsFor (sigs : List (String × Signal)) (msgId : String) : List Signal :=
  (sigs.filter fun p => p.1 = msgId).map fun p => p.2

/-! ### Serialisation (`_generate_header`, `_generate_nodes`,
`_generate_messages_and_signals`) -/

/-- The fixed header lines (`_generate_header`); the `is_canfd` parameter
is accepted but unused — the CANFD block is commented out in the source. -/
def headerLines : List String :=
  ["VERSION \"\"", "", "",
   "NS_ : ", " NS_DESC_", " CM_", " BA_DEF_", " BA_", " VAL_", " CAT_DEF_",
   " CAT_", " FILTER", " BA_DEF_DEF_", " EV_DATA_", " ENVVAR_DATA_",
   " SGTYPE_", " SGTYPE_VAL_", " BA_DEF_SGTYPE_", " BA_SGTYPE_",
   " SIG_TYPE_REF_", " VAL_TABLE_", " SIG_GROUP_", " SIG_VALTYPE_",
   " SIGTYPE_VALTYPE_", " BO_TX_BU_", " BA_DEF_REL_", " BA_REL_",
   " BA_DEF_DEF_REL_", " BU_SG_REL_", " BU_EV_REL_", " BU_BO_REL_",
   " SG_MUL_VAL_", "",
   "BS_:", "",
   ""]

/-- `_generate_header`. -/
def generateHeader (isCanfd : Bool) : String :=
  let _ := isCanfd
  joinSep "\n" headerLines

/-- `_extract_nodes`: suffixes of the node columns plus the distinct
controller names, as a sorted deduplicated list (the Python `set`,
determinised as a deduplicated list, then sorted). -/
def extractNodes (cols : List String) (nodeCols : List String) (rows : List Row) : List String :=
  let fromNodeCols := nodeCols.filterMap fun col =>
    if pyContains col "_" then
      let nm := pyStrip ((pySplitU col).getLastD "")
      if nm = "" then none else some nm
    else none
  let fromControllers :=
    match cols.find? fun c => pyContains c "Controller" || pyContains c "控制器" with
    | none => []
    | some cc =>
      ((rows.filterMap fun r => r.get? cc).dedup).filterMap fun v =>
        let s := pyStrip v
        if s = "" then none else some s
  sortStrings ((fromNodeCols ++ fromControllers).dedup)

/-- `_generate_nodes`: the `BU_:` line, with `Vector__XXX` appended when
missing; three-line blank block when no nodes. -/
def generateNodes (nodes : List String) : String :=
  if nodes ≠ [] then
    let nodes := if nodes.contains "Vector__XXX" then nodes else nodes ++ ["Vector__XXX"]
    "BU_: " ++ joinSep " " nodes ++ "\n\n\n"
  else "\n\n\n"

/-- The `BO_` line of `_generate_messages_and_signals`. -/
def boLine (msgId : String) (m : Message) : String :=
  "BO_ " ++ msgId ++ " " ++ m.name ++ ": " ++ m.dlc ++ " " ++ m.sender

/-- The `SG_` line of `_generate_messages_and_signals`: the byte order is
emitted as `@1` (Intel) unconditionally. -/
def sgLine (s : Signal) : String :=
  " SG_ " ++ s.name ++ " : " ++ s.startBit ++ "|" ++ s.length ++ "@1" ++
    (if s.valueType = "Unsigned" then "+" else "-") ++
    " (" ++ s.factor ++ "," ++ s.offset ++ ") [" ++ s.minV ++ "|" ++ s.maxV ++
    "] \"" ++ pyStrip s.unit ++ "\" " ++ s.receiver

/-- `_generate_messages_and_signals`: `BO_` line, blank, the message's
`SG_` lines, two blanks; all joined with newlines. -/
def messagesAndSignals (messages : List (String × Message))
    (sigs : List (String × Signal)) : String :=
  joinSep "\n" (messages.flatMap fun p =>
    [boLine p.1 p.2, ""] ++ (signalsFor sigs p.1).map sgLine ++ ["", ""])

/-- The textual content written for one bus inside the `generate_dbc`
loop: header, node block, message/signal block.  The loop variable
`bus_type` is not consulted anywhere in this assembly, and no ASCII or
newline post-processing is applied (the file is opened in UTF-8). -/
def artifactContent (isCanfd : Bool) (cols : List String) (rows : List Row)
    (nodeCols : List String) : String :=
  generateHeader isCanfd ++ generateNodes (extractNodes cols nodeCols rows) ++
    messagesAndSignals (extractMessages cols rows) (extractSignals cols rows)

/-- One artifact of the per-bus loop of `generate_dbc`: file name
`<base>_<bus>CAN.dbc` (for `output_file = base ++ ".dbc"`, split by
`os.path.splitext`) and the written content. -/
def artifact (busType : String) (outputBase : String) (isCanfd : Bool)
    (cols : List String) (rows : List Row) (nodeCols : List String) : String × String :=
  (outputBase ++ "_" ++ busType ++ "CAN.dbc", artifactContent isCanfd cols rows nodeCols)

/-- Bus suffix contributed by one node column (`generate_dbc` lines
50–59): the part after the last underscore, provided the column holds at
least one non-`NaN` cell (`notna().sum() > 0`). -/
def busOf (rows : List Row) (col : String) : Option String :=
  if pyContains col "_" then
    if (pySplitU col).length ≥ 2 && rows.any fun r => (r.get? col).isSome then
      some ((pySplitU col).getLastD "")
    else none
  else none

/-- The bus suffixes `generate_dbc` generates one artifact for
(the Python `set`, modelled as a deduplicated list). -/
def validBusTypes (nodeCols : List String) (rows : List Row) : List String :=
  (nodeCols.filterMap (busOf rows)).dedup

/-- The artifact file names one `generate_dbc` run produces (no explicit
target bus requested), for `output_file = outputBase ++ ".dbc"`. -/
def outputFiles (outputBase : String) (nodeCols : List String) (rows : List Row) :
    List String :=
  (validBusTypes nodeCols rows).map fun b => outputBase ++ "_" ++ b ++ "CAN.dbc"

end Core

namespace Spec

/-- Modelled from the spec's words (claim C5): a label is a node indicator
column exactly when it contains at least one underscore, its suffix (text
after the last underscore) is alphabetic and entirely upper-case, its
front part does not start with the configuration marker `LV`, and the full
label does not end with the configuration suffix `EV`. -/
def isNodeIndicator (col : String) : Bool :=
  let s := pyStrip col
  pyContains s "_" &&
    (let parts := pySplitU s
     let suf := parts.getLastD ""
     let pre := joinSep "_" parts.dropLast
     pyIsAlpha suf && pyIsUpper suf &&
       !pyStarts pre "LV" && !pyEnds s "EV")

/-- The amended C5 rule (spec's words with the one correction the core
handler's code forces): the `EV` exclusion is applied to the front part
(text before the last underscore) instead of the full label. -/
def isNodeIndicatorPreEV (col : String) : Bool :=
  let s := pyStrip col
  pyContains s "_" &&
    (let parts := pySplitU s
     let suf := parts.getLastD ""
     let pre := joinSep "_" parts.dropLast
     pyIsAlpha suf && pyIsUpper suf &&
       !pyStarts pre "LV" && !pyEnds pre "EV")

end Spec

/-! ## Supporting lemmas -/

theorem row_get?_set_ne (r : Row) (c v cx : String) (h : cx ≠ c) :
    (r.set c v).get? cx = r.get? cx := by
  show (if c = cx then some v else r.get? cx) = r.get? cx
  rw [if_neg (Ne.symm h)]

theorem flatMap_ascii (cs : List Char) :
    ((cs.flatMap fun c =>
        if c.toNat < 128 then [c] else if c = 'Ω' then ['O', 'h', 'm'] else []).all
      fun c => c.toNat < 128) = true := by
  induction cs with
  | nil => rfl
  | cons c cs ih =>
    simp only [List.flatMap_cons, List.all_append, ih, Bool.and_true]
    by_cases hc : c.toNat < 128
    · simp [hc]
    · by_cases hw : c = 'Ω' <;> simp [hc, hw]

theorem ensureAscii_ascii (s : String) :
    ((Legacy.ensureAscii s).data.all fun c => c.toNat < 128) = true := by
  unfold Legacy.ensureAscii
  exact flatMap_ascii s.data

theorem replaceCR_no_cr (cs : List Char) : '\r' ∉ Legacy.replaceCR cs := by
  intro hmem
  obtain ⟨d, _, hd⟩ := List.mem_map.mp hmem
  by_cases h : d = '\r' <;> simp [h] at hd

theorem mem_ensureAscii (s : String) (c : Char) (hc : c ∈ (Legacy.ensureAscii s).data) :
    c ∈ s.data ∨ c ∈ ['O', 'h', 'm'] := by
  unfold Legacy.ensureAscii at hc
  obtain ⟨d, hd, hcd⟩ := List.mem_flatMap.mp hc
  by_cases h1 : d.toNat < 128
  · simp only [h1, if_true, List.mem_singleton] at hcd
    exact Or.inl (hcd ▸ hd)
  · by_cases h2 : d = 'Ω'
    · simp only [h1, if_false, h2, if_true] at hcd
      exact Or.inr hcd
    · simp [h1, h2] at hcd

theorem postProcess_no_cr (s : String) : '\r' ∉ (Legacy.postProcess s).data := by
  intro hmem
  rcases mem_ensureAscii _ _ hmem with h | h
  · exact replaceCR_no_cr _ h
  · simp at h

theorem messagesStep_sender (idCol : String) (nameCol dlcCol : Option String)
    (acc : List (String × Core.Message)) (row : Row)
    (hacc : ∀ p ∈ acc, p.2.sender = "Vector__XXX") :
    ∀ p ∈ Core.messagesStep idCol nameCol dlcCol acc row, p.2.sender = "Vector__XXX" := by
  intro p hp
  unfold Core.messagesStep at hp
  cases hrow : row.get? idCol with
  | none => rw [hrow] at hp; exact hacc p hp
  | some v =>
    rw [hrow] at hp
    simp only at hp
    split at hp
    · exact hacc p hp
    · split at hp
      · exact hacc p hp
      · split at hp
        · exact hacc p hp
        · rcases List.mem_append.mp hp with h | h
          · exact hacc p h
          · rw [List.mem_singleton.mp h]

theorem messagesFold_sender (idCol : String) (nameCol dlcCol : Option String)
    (rows : List Row) (acc : List (String × Core.Message))
    (hacc : ∀ p ∈ acc, p.2.sender = "Vector__XXX") :
    ∀ p ∈ rows.foldl (Core.messagesStep idCol nameCol dlcCol) acc, p.2.sender = "Vector__XXX" := by
  induction rows generalizing acc with
  | nil => exact hacc
  | cons row rows ih =>
    exact ih _ (messagesStep_sender idCol nameCol dlcCol acc row hacc)

theorem extractMessages_sender (cols : List String) (rows : List Row) :
    ∀ p ∈ Core.extractMessages cols rows, p.2.sender = "Vector__XXX" := by
  unfold Core.extractMessages
  cases h : Core.findMessageIdCol cols with
  | none => intro p hp; simp at hp
  | some idCol => exact messagesFold_sender idCol _ _ rows [] (by intro p hp; simp at hp)

theorem busOf_mem (rows : List Row) (col b : String) (h : Core.busOf rows col = some b) :
    (rows.any fun r => (r.get? col).isSome) = true ∧ (pySplitU col).getLastD "" = b := by
  unfold Core.busOf at h
  split at h
  · split at h
    · rename_i hcond
      refine ⟨(Bool.and_eq_true .. |>.mp hcond).2, ?_⟩
      exact Option.some.inj h
    · exact absurd h (by simp)
  · exact absurd h (by simp)

theorem mem_validBusTypes (nodeCols : List String) (rows : List Row) (b : String)
    (hb : b ∈ Core.validBusTypes nodeCols rows) :
    ∃ col ∈ nodeCols, (rows.any fun r => (r.get? col).isSome) = true ∧
      (pySplitU col).getLastD "" = b := by
  unfold Core.validBusTypes at hb
  rw [List.mem_dedup] at hb
  obtain ⟨col, hcol, hf⟩ := List.mem_filterMap.mp hb
  exact ⟨col, hcol, busOf_mem rows col b hf⟩

theorem busOf_pos (rows : List Row) (col suf : String)
    (h1 : pyContains col "_" = true)
    (h2 : (pySplitU col).length ≥ 2)
    (h3 : (rows.any fun r => (r.get? col).isSome) = true)
    (h4 : (pySplitU col).getLastD "" = suf) :
    Core.busOf rows col = some suf := by
  unfold Core.busOf
  rw [if_pos h1, if_pos]
  · rw [h4]
  · rw [Bool.and_eq_true]
    exact ⟨by simpa using h2, h3⟩

theorem legacy_node_rule_eq_spec (l : String) :
    Legacy.isNodeColumn l = Spec.isNodeIndicator l := by
  unfold Legacy.isNodeColumn Spec.isNodeIndicator
  cases h1 : pyContains (pyStrip l) "_" <;> simp [h1, Bool.and_assoc]

theorem core_node_rule_eq_specPreEV (l : String) :
    Core.isNodeColumn l = Spec.isNodeIndicatorPreEV l := by
  unfold Core.isNodeColumn Spec.isNodeIndicatorPreEV
  cases h1 : pyContains (pyStrip l) "_" <;> simp [h1, Bool.and_assoc]

theorem validBusTypes_PE (rows : List Row)
    (h1 : (rows.any fun r => (r.get? "VCU_P").isSome) = true)
    (h2 : (rows.any fun r => (r.get? "VCU_E").isSome) = true) :
    Core.validBusTypes ["VCU_P", "VCU_E"] rows = ["P", "E"] := by
  unfold Core.validBusTypes
  have hP := busOf_pos rows "VCU_P" "P" (by decide) (by decide) h1 (by decide)
  have hE := busOf_pos rows "VCU_E" "E" (by decide) (by decide) h2 (by decide)
  rw [List.filterMap_cons_some hP, List.filterMap_cons_some hE, List.filterMap_nil]
  decide

theorem outputFiles_PE (base : String) (rows : List Row)
    (h1 : (rows.any fun r => (r.get? "VCU_P").isSome) = true)
    (h2 : (rows.any fun r => (r.get? "VCU_E").isSome) = true) :
    Core.outputFiles base ["VCU_P", "VCU_E"] rows =
      [base ++ "_PCAN.dbc", base ++ "_ECAN.dbc"] := by
  unfold Core.outputFiles
  rw [validBusTypes_PE rows h1 h2]
  simp only [List.map_cons, List.map_nil, String.append_assoc]
  rfl


/-! ### Decimal-rendering lemmas (for claim C8) -/

theorem string_data_append (a b : String) : (a ++ b).data = a.data ++ b.data := rfl

theorem rstrip_data_reverse (s : String) (c : Char) :
    (rstrip s c).data.reverse = s.data.reverse.dropWhile fun d => d = c := by
  simp [rstrip]

theorem digitChar_isDigit (k : Nat) (hk : k < 10) : (Nat.digitChar k).isDigit = true := by
  have h : ∀ j, j < 10 → (Nat.digitChar j).isDigit = true := by decide
  exact h k hk

theorem toDigitsCore_digits (fuel : Nat) :
    ∀ (n : Nat) (ds : List Char), (∀ c ∈ ds, c.isDigit = true) →
      ∀ c ∈ Nat.toDigitsCore 10 fuel n ds, c.isDigit = true := by
  induction fuel with
  | zero => intro n ds hds c hc; exact hds c hc
  | succ f ih =>
    intro n ds hds c hc
    have hnew : ∀ x ∈ Nat.digitChar (n % 10) :: ds, x.isDigit = true := by
      intro x hx
      rcases List.mem_cons.mp hx with h | h
      · exact h ▸ digitChar_isDigit _ (Nat.mod_lt _ (by norm_num))
      · exact hds x h
    unfold Nat.toDigitsCore at hc
    simp only [] at hc
    split at hc
    · exact hnew c hc
    · exact ih (n / 10) _ hnew c hc

theorem toDigitsCore_ne_nil (fuel : Nat) :
    ∀ (n : Nat) (ds : List Char), ds ≠ [] ∨ fuel ≠ 0 →
      Nat.toDigitsCore 10 fuel n ds ≠ [] := by
  induction fuel with
  | zero =>
    intro n ds h
    rcases h with h | h
    · exact h
    · exact absurd rfl h
  | succ f ih =>
    intro n ds h
    unfold Nat.toDigitsCore
    simp only []
    split
    · exact List.cons_ne_nil _ _
    · exact ih (n / 10) _ (Or.inl (List.cons_ne_nil _ _))

theorem natRepr_data_digits (n : Nat) : ∀ c ∈ (toString n).data, c.isDigit = true :=
  toDigitsCore_digits (n + 1) n [] (by intro c hc; simp at hc)

theorem natRepr_data_ne_nil (n : Nat) : (toString n).data ≠ [] :=
  toDigitsCore_ne_nil (n + 1) n [] (Or.inr (Nat.succ_ne_zero n))

set_option maxRecDepth 40000 in
theorem natRepr_len_le_3 : ∀ k, k < 1000 → (toString k).length ≤ 3 := by decide

theorem pad3_digits (k : Nat) : ∀ c ∈ (Legacy.pad3 k).data, c.isDigit = true := by
  unfold Legacy.pad3
  simp only []
  split
  · exact natRepr_data_digits k
  · intro c hc
    rw [string_data_append] at hc
    rcases List.mem_append.mp hc with h | h
    · have : c = '0' := List.eq_of_mem_replicate (by simpa using h)
      rw [this]; decide
    · exact natRepr_data_digits k c h

theorem pad3_length (k : Nat) (hk : (toString k).length ≤ 3) :
    (Legacy.pad3 k).data.length = 3 := by
  have hdl : (toString k).data.length = (toString k).length := rfl
  unfold Legacy.pad3
  simp only []
  split
  · rename_i hge
    omega
  · rename_i hlt
    rw [string_data_append]
    simp only [List.length_append]
    simp only [String.data, List.length_replicate]
    omega

theorem dropWhile_append_cases {α : Type} (p : α → Bool) (l1 l2 : List α) :
    (l1 ++ l2).dropWhile p =
      match l1.dropWhile p with
      | [] => l2.dropWhile p
      | d :: r => d :: (r ++ l2) := by
  induction l1 with
  | nil => simp
  | cons x xs ih =>
    by_cases hx : p x = true
    · simp only [List.cons_append, List.dropWhile_cons, hx, if_true, ih]
    · simp [List.dropWhile_cons, hx]

theorem takeWhile_append_stop {α : Type} (p : α → Bool) (l1 : List α) (x : α) (l2 : List α)
    (h1 : ∀ y ∈ l1, p y = true) (hx : p x = false) :
    (l1 ++ x :: l2).takeWhile p = l1 := by
  induction l1 with
  | nil => simp [List.takeWhile_cons, hx]
  | cons y ys ih =>
    have hy : p y = true := h1 y (List.mem_cons_self _ _)
    simp only [List.cons_append, List.takeWhile_cons, hy, if_true]
    rw [ih fun z hz => h1 z (List.mem_cons_of_mem _ hz)]

theorem dropWhile_head_false {α : Type} (p : α → Bool) (l : List α) (d : α) (r : List α)
    (h : l.dropWhile p = d :: r) : p d = false := by
  induction l with
  | nil => simp at h
  | cons x xs ih =>
    rw [List.dropWhile_cons] at h
    split at h
    · exact ih h
    · rename_i hx
      cases h
      simp at hx
      exact hx

theorem mem_of_mem_dropWhile {α : Type} (p : α → Bool) (l : List α) (a : α)
    (h : a ∈ l.dropWhile p) : a ∈ l := by
  induction l with
  | nil => simp at h
  | cons x xs ih =>
    rw [List.dropWhile_cons] at h
    split at h
    · exact List.mem_cons_of_mem _ (ih h)
    · exact h

theorem length_dropWhile_le {α : Type} (p : α → Bool) (l : List α) :
    (l.dropWhile p).length ≤ l.length := by
  induction l with
  | nil => simp
  | cons x xs ih =>
    rw [List.dropWhile_cons]
    split
    · exact le_trans ih (by simp)
    · simp

theorem isDigit_ne_dot (c : Char) (h : c.isDigit = true) : (c = '.') = False := by
  by_cases he : c = '.'
  · rw [he] at h
    simp at h
  · simp [he]

theorem isDigit_not_dot (c : Char) (h : c.isDigit = true) : c ≠ '.' := by
  intro he
  rw [he] at h
  simp at h

theorem isDigit_decide_dot (c : Char) (h : c.isDigit = true) : (decide (c = '.')) = false :=
  decide_eq_false (isDigit_not_dot c h)

theorem formatNum_nonintegral_shape (q : ℚ) (hq : q.den ≠ 1) :
    fracDigitCount (Legacy.formatNum q) ≤ 3 ∧
    endsInChar (Legacy.formatNum q) '.' = false ∧
    ((Legacy.formatNum q).data.contains '.' = true →
      endsInChar (Legacy.formatNum q) '0' = false) := by
  have hfn : Legacy.formatNum q = rstrip (rstrip (Legacy.fixed3 q) '0') '.' := by
    unfold Legacy.formatNum
    rw [if_neg hq]
  set M := (Legacy.roundHalfEven (q.num.natAbs * 1000) q.den).toNat with hM
  have hfx : Legacy.fixed3 q =
      (if q.num < 0 then "-" else "") ++ toString (M / 1000) ++ "." ++
        Legacy.pad3 (M % 1000) := rfl
  have hrev : (Legacy.formatNum q).data.reverse =
      List.dropWhile (fun c => c = '.')
        (List.dropWhile (fun c => c = '0')
          ((Legacy.pad3 (M % 1000)).data.reverse ++
            '.' :: ((toString (M / 1000)).data.reverse ++
              (if q.num < 0 then "-" else "").data.reverse))) := by
    rw [hfn, rstrip_data_reverse, rstrip_data_reverse, hfx]
    rw [string_data_append, string_data_append, string_data_append]
    simp [List.reverse_append]
  have hPd : ∀ c ∈ (Legacy.pad3 (M % 1000)).data, c.isDigit = true := pad3_digits _
  have hP3 : (Legacy.pad3 (M % 1000)).data.length = 3 :=
    pad3_length _ (natRepr_len_le_3 _ (Nat.mod_lt _ (by norm_num)))
  have hXd : ∀ c ∈ (toString (M / 1000)).data, c.isDigit = true := natRepr_data_digits _
  have hXne : (toString (M / 1000)).data ≠ [] := natRepr_data_ne_nil _
  have hsgn : ∀ c ∈ (if q.num < 0 then "-" else "").data, c ≠ '.' := by
    split
    · intro c hc
      have : c = '-' := by simpa using hc
      rw [this]
      decide
    · intro c hc
      simp at hc
  generalize hPg : (Legacy.pad3 (M % 1000)).data = Pd at hPd hP3 hrev
  generalize hXg : (toString (M / 1000)).data = Xd at hXd hXne hrev
  generalize hSg : (if q.num < 0 then "-" else "").data = Sd at hsgn hrev
  rw [dropWhile_append_cases] at hrev
  cases hdw : Pd.reverse.dropWhile (fun c => c = '0') with
  | nil =>
    rw [hdw] at hrev
    simp only [] at hrev
    rw [List.dropWhile_cons] at hrev
    rw [show (decide (('.' : Char) = '0')) = false from rfl] at hrev
    simp only [Bool.false_eq_true, if_false] at hrev
    rw [List.dropWhile_cons] at hrev
    rw [show (decide (('.' : Char) = '.')) = true from rfl] at hrev
    simp only [if_true] at hrev
    cases hx : Xd.reverse with
    | nil =>
      exact absurd (by simpa using congrArg List.reverse hx) hXne
    | cons x xt =>
      have hxmem : x ∈ Xd := by
        rw [← List.mem_reverse, hx]
        exact List.mem_cons_self _ _
      have hxdig : x.isDigit = true := hXd x hxmem
      rw [hx, List.cons_append, List.dropWhile_cons] at hrev
      rw [isDigit_decide_dot x hxdig] at hrev
      simp only [Bool.false_eq_true, if_false] at hrev
      have hnodot : '.' ∉ (Legacy.formatNum q).data := by
        intro hmem
        have h2 : '.' ∈ x :: (xt ++ Sd.reverse) := hrev ▸ List.mem_reverse.mpr hmem
        rcases List.mem_cons.mp h2 with h3 | h3
        · exact isDigit_not_dot x hxdig h3.symm
        · rcases List.mem_append.mp h3 with h4 | h4
          · have : ('.' : Char) ∈ Xd := by
              rw [← List.mem_reverse, hx]
              exact List.mem_cons_of_mem _ h4
            exact isDigit_not_dot _ (hXd _ this) rfl
          · exact hsgn '.' (List.mem_reverse.mp h4) rfl
      have hcf : (Legacy.formatNum q).data.contains '.' = false := by
        simpa using hnodot
      refine ⟨?_, ?_, ?_⟩
      · unfold fracDigitCount
        rw [hcf]
        simp
      · unfold endsInChar
        rw [hrev]
        exact isDigit_decide_dot x hxdig
      · intro hcont
        rw [hcf] at hcont
        simp at hcont
  | cons d r =>
    rw [hdw] at hrev
    simp only [] at hrev
    have hd0 : (decide (d = '0')) = false :=
      dropWhile_head_false (fun c => decide (c = '0')) Pd.reverse d r hdw
    have hdmem : d ∈ Pd := by
      rw [← List.mem_reverse]
      exact mem_of_mem_dropWhile _ _ _ (hdw ▸ List.mem_cons_self _ _)
    have hddig : d.isDigit = true := hPd d hdmem
    have hrmem : ∀ c ∈ r, c.isDigit = true := by
      intro c hc
      have : c ∈ Pd := by
        rw [← List.mem_reverse]
        exact mem_of_mem_dropWhile _ _ _ (hdw ▸ List.mem_cons_of_mem _ hc)
      exact hPd c this
    rw [List.dropWhile_cons] at hrev
    rw [isDigit_decide_dot d hddig] at hrev
    simp only [Bool.false_eq_true, if_false] at hrev
    have hlen : (d :: r).length ≤ 3 := by
      have hl := length_dropWhile_le (fun c => decide (c = '0')) Pd.reverse
      rw [hdw] at hl
      rw [List.length_reverse, hP3] at hl
      exact hl
    refine ⟨?_, ?_, ?_⟩
    · have hdot : ('.' : Char) ∈ (Legacy.formatNum q).data := by
        rw [← List.mem_reverse, hrev]
        exact List.mem_cons_of_mem _ (List.mem_append_right _ (List.mem_cons_self _ _))
      have hct : (Legacy.formatNum q).data.contains '.' = true := by
        simpa using hdot
      unfold fracDigitCount
      rw [hct]
      simp only [if_true, List.reverse_reverse]
      rw [hrev, ← List.cons_append]
      rw [takeWhile_append_stop _ (d :: r) '.' _ ?hall ?hstop]
      · exact hlen
      case hall =>
        intro y hy
        rcases List.mem_cons.mp hy with h | h
        · exact h ▸ decide_eq_true (isDigit_not_dot d hddig)
        · exact decide_eq_true (isDigit_not_dot y (hrmem y h))
      case hstop => decide
    · unfold endsInChar
      rw [hrev]
      exact isDigit_decide_dot d hddig
    · intro _
      unfold endsInChar
      rw [hrev]
      exact hd0

/-! ## Claims -/

/-! ## Concrete test matrices (fixtures for witnesses and counterexamples) -/

/-- Header labels of a bilingual matrix sheet, as in the sheets this tool
consumes. -/
def fxCols : List String :=
  ["Msg ID\n报文标识符", "Msg Name\n报文名称", "Msg Length (Byte)\n报文长度",
   "Signal Name\n信号名称", "Start Byte\n起始字节", "Start Bit\n起始位",
   "Bit Length (Bit)\n信号长度", "Byte Order\n排列格式", "Date Type\n数据类型",
   "Factor\n比例因子", "Offset\n偏移量", "Signal Min. Value (phys)\n物理最小值",
   "Signal Max. Value (phys)\n物理最大值", "Unit\n单位", "VCU_P", "VCU_E"]

def fxHdr : Row :=
  [("Msg ID\n报文标识符", "0x100"), ("Msg Name\n报文名称", "EngineStatus"),
   ("Msg Length (Byte)\n报文长度", "8"), ("VCU_P", "Tx")]

def fxHdrDec : Row :=
  [("Msg ID\n报文标识符", "256"), ("Msg Name\n报文名称", "EngineStatus"),
   ("Msg Length (Byte)\n报文长度", "8"), ("VCU_P", "Tx")]

def fxSig : Row :=
  [("Signal Name\n信号名称", "EngineSpeed"), ("Start Byte\n起始字节", "1"),
   ("Start Bit\n起始位", "2"), ("Bit Length (Bit)\n信号长度", "16"),
   ("Factor\n比例因子", "0.1"), ("Unit\n单位", "Ω"), ("VCU_E", "Rx")]

def fxBad : Row := [("Msg ID\n报文标识符", "XYZ")]

def fxHdr2 : Row := [("Msg ID\n报文标识符", "0x200")]

def fxSig2 : Row := [("Signal Name\n信号名称", "S2")]

def fxColsNoStartBit : List String :=
  ["Msg ID\n报文标识符", "Signal Name\n信号名称", "Start Byte\n起始字节"]

def fxSigByteOnly : Row := [("Signal Name\n信号名称", "S"), ("Start Byte\n起始字节", "2")]

/-- C1: for every signal row whose (start byte, start bit) pair parses, with
`start_byte ≥ 0` and `0 ≤ start_bit ≤ 7`, both generators record the absolute
start bit `start_byte * 8 + start_bit` for the signal (the value the `SG_`
line then prints), and the value does not depend on the byte-order value
declared in the source row. -/
theorem c1_absolute_start_bit :
    (∀ (row : Row) (b bit : Int),
      Legacy.cellInt (row.get? Legacy.startByteLabel) = some b →
      Legacy.cellInt (row.get? Legacy.startBitLabel) = some bit →
      0 ≤ b → 0 ≤ bit → bit ≤ 7 →
      Legacy.intelStartBit row = some (b * 8 + bit) ∧
        ∀ v : String, Legacy.intelStartBit (row.set Legacy.byteOrderLabel v) =
          some (b * 8 + bit)) ∧
    (∀ (cfg : Core.SigCols) (row : Row) (name cb sb vb vs : String) (qb qs : ℚ),
      cfg.startByte = some cb → cfg.startBit = some sb →
      row.get? cb = some vb → row.get? sb = some vs →
      pyFloat vb = some qb → pyFloat vs = some qs →
      0 ≤ truncQ qb → 0 ≤ truncQ qs → truncQ qs ≤ 7 →
      (Core.buildSignal cfg row name).startBit = toString (truncQ qb * 8 + truncQ qs) ∧
        ∀ bo : Option String,
          Core.sigStartBitVal { cfg with byteOrder := bo } row = truncQ qb * 8 + truncQ qs) := by
  constructor
  · intro row b bit hb hbit _ _ _
    have hmain : Legacy.intelStartBit row = some (b * 8 + bit) := by
      unfold Legacy.intelStartBit
      rw [hb, hbit]
      rfl
    refine ⟨hmain, fun v => ?_⟩
    unfold Legacy.intelStartBit at hmain ⊢
    rw [row_get?_set_ne _ _ _ _ (by decide), row_get?_set_ne _ _ _ _ (by decide)]
    exact hmain
  · intro cfg row name cb sb vb vs qb qs hcb hsb hvb hvs hqb hqs _ _ _
    have hgen : ∀ cfg' : Core.SigCols, cfg'.startByte = some cb → cfg'.startBit = some sb →
        Core.sigStartBitVal cfg' row = truncQ qb * 8 + truncQ qs := by
      intro cfg' h1 h2
      simp only [Core.sigStartBitVal, Core.getD0, h1, h2, hvb, hvs, hqb, hqs]
    refine ⟨?_, fun bo => hgen _ hcb hsb⟩
    show toString (Core.sigStartBitVal cfg row) = _
    rw [hgen cfg hcb hsb]

/-- C1 witness: concrete instances — legacy row (2, 3) gives 19; the core
end-to-end signal row (1, 2) records `"10"`. -/
theorem c1_absolute_start_bit_witness :
    Legacy.intelStartBit [("Start Byte\n起始字节", "2"), ("Start Bit\n起始位", "3")] =
      some 19 ∧
    (Core.buildSignal (Core.resolveSigCols fxCols) fxSig "EngineSpeed").startBit = "10" := by
  constructor
  · have h := (c1_absolute_start_bit.1
      [("Start Byte\n起始字节", "2"), ("Start Bit\n起始位", "3")] 2 3
      (by decide) (by decide) (by decide) (by decide) (by decide)).1
    simpa using h
  · have h := (c1_absolute_start_bit.2 (Core.resolveSigCols fxCols) fxSig "EngineSpeed"
      "Start Byte\n起始字节" "Start Bit\n起始位" "1" "2" (mkRat 1 1) (mkRat 2 1)
      (by decide) (by decide) (by decide) (by decide) (by decide) (by decide)
      (by decide) (by decide) (by decide)).1
    simpa using h


/-- C2 counterexample: the legacy generator formats the decimal source id
`"256"` as `0x256` and parses it in base 16, so its `BO_` line emits 598 —
not the decimal value 256 the claim requires. -/
theorem c2_counterexample :
    Legacy.msgIdDec "256" = some 598 ∧
    (Legacy.msgIdDec "256" == some 256) = false ∧
    Legacy.boLine "EngineStatus" "256" 8 [] [] =
      some "BO_ 598 EngineStatus: 8 Vector__XXX" := by
  refine ⟨by decide, by decide, by decide⟩

/-- C2 amended: the core generator emits a `0x`-source id as its canonical
decimal value and a decimal source id verbatim (`"256" ↦ 256`,
`"0x100" ↦ 256`, as the claim states); the legacy generator instead
interprets every id as hexadecimal, so `"0x100" ↦ 256` but `"256" ↦ 598`. -/
theorem c2_message_id_decimal :
    Core.parseIdPair "256" = some ("256", "0x100") ∧
    Core.parseIdPair "0x100" = some ("256", "0x100") ∧
    ((Core.extractMessages fxCols [fxHdrDec]).map fun p => Core.boLine p.1 p.2) =
      ["BO_ 256 EngineStatus: 8 Vector__XXX"] ∧
    ((Core.extractMessages fxCols [fxHdr]).map fun p => Core.boLine p.1 p.2) =
      ["BO_ 256 EngineStatus: 8 Vector__XXX"] ∧
    Legacy.msgIdDec "0x100" = some 256 ∧
    Legacy.msgIdDec "256" = some 598 ∧
    (∀ (s : String) (n : Int),
      (pyStarts s "0x" || pyStarts s "0X") = false → pyIntBase10 s = some n →
      Core.parseIdPair s = some (s, "0x" ++ hexReprInt n)) := by
  refine ⟨by decide, by decide, by decide, by decide, by decide, by decide, ?_⟩
  intro s n hpre h10
  unfold Core.parseIdPair
  rw [hpre]
  simp only [Bool.false_eq_true, if_false, h10]
  rfl

/-- C2 witness: the verbatim-emission rule instantiated at `"256"`. -/
theorem c2_message_id_decimal_witness :
    Core.parseIdPair "256" = some ("256", "0x" ++ hexReprInt 256) := by
  have h := c2_message_id_decimal.2.2.2.2.2.2 "256" 256 (by decide) (by decide)
  exact h

/-- C3 counterexample: a valid header row `0x100` opens message 256, but a
following row with the unparsable id cell `"XYZ"` resets the assembler state
to `none`, so the signal row after it is dropped — no signal is appended to
the previously opened message, contrary to the claim. -/
theorem c3_counterexample :
    Core.extractSignalsFold fxCols [fxHdr] = (some "256", []) ∧
    fxBad.get? "Msg ID\n报文标识符" = some "XYZ" ∧
    Core.parseSigMsgId "XYZ" = none ∧
    Core.extractSignalsFold fxCols [fxHdr, fxBad, fxSig] = (none, []) := by
  refine ⟨by decide, by decide, by decide, by decide⟩

/-- C3 amended: a row with a non-empty unparsable id resets the core
assembler's current-message state to `none` and contributes nothing itself;
processing continues with later rows (a later valid header opens a fresh
message whose signal rows are kept).  In the legacy generator the same id
makes the `BO_` emission raise, failing the generation run. -/
theorem c3_unparsable_id_row :
    (∀ (cfg : Core.SigCols) (idCol nameCol : String)
        (st : Option String × List (String × Core.Signal)) (row : Row) (v : String),
      row.get? idCol = some v → ¬(pyStrip v = "") → Core.parseSigMsgId (pyStrip v) = none →
      Core.sigStep cfg idCol nameCol st row = (none, st.2)) ∧
    ((Core.extractSignals fxCols [fxHdr, fxSig, fxBad, fxHdr2, fxSig2]).map
        fun p => (p.1, p.2.name)) = [("256", "EngineSpeed"), ("512", "S2")] ∧
    Legacy.msgIdDec "XYZ" = none ∧
    Legacy.boLine "M" "XYZ" 8 [] [] = none := by
  refine ⟨?_, by decide, by decide, by decide⟩
  intro cfg idCol nameCol st row v hrow hne hparse
  unfold Core.sigStep
  rw [hrow]
  simp only [if_neg hne, hparse]

/-- C3 witness: the reset rule instantiated at the `"XYZ"` row. -/
theorem c3_unparsable_id_row_witness :
    Core.sigStep (Core.resolveSigCols fxCols) "Msg ID\n报文标识符" "Signal Name\n信号名称"
      (some "256", []) fxBad = (none, []) := by
  exact c3_unparsable_id_row.1 _ _ _ _ fxBad "XYZ" (by decide) (by decide) (by decide)

/-- C4 counterexample: on a header row whose `VCU_P` indicator reads `Tx`,
the core generator still emits the sender `Vector__XXX`, not `VCU_P`. -/
theorem c4_counterexample :
    fxHdr.get? "VCU_P" = some "Tx" ∧
    ((Core.extractMessages fxCols [fxHdr, fxSig]).map fun p => p.2.sender) =
      ["Vector__XXX"] ∧
    (("Vector__XXX" : String) == "VCU_P") = false := by
  refine ⟨by decide, by decide, by decide⟩

/-- C4 amended: the legacy generator emits as sender the first node column
reading `Tx` in the message's header row, and the default marker
`Vector__XXX` when no node column reads `Tx`; the core generator never reads
the `Tx` indicators and emits `Vector__XXX` for every message. -/
theorem c4_sender_resolution :
    (∀ (nodeCols : List String) (row : Row), "Unknown" ∉ nodeCols →
      ((nodeCols.find? fun col => row.get? col = some "Tx") = none →
        Legacy.emittedSender nodeCols row = "Vector__XXX") ∧
      (∀ c, (nodeCols.find? fun col => row.get? col = some "Tx") = some c →
        Legacy.emittedSender nodeCols row = c)) ∧
    (∀ (cols : List String) (rows : List Row),
      ∀ p ∈ Core.extractMessages cols rows, p.2.sender = "Vector__XXX") := by
  constructor
  · intro nodeCols row hunk
    constructor
    · intro hnone
      unfold Legacy.emittedSender Legacy.sender
      rw [hnone]
      rfl
    · intro c hsome
      have hmem : c ∈ nodeCols := List.mem_of_find?_eq_some hsome
      have hne : c ≠ "Unknown" := fun he => hunk (he ▸ hmem)
      unfold Legacy.emittedSender Legacy.sender
      rw [hsome]
      simp [hne]
  · intro cols rows
    exact extractMessages_sender cols rows

/-- C4 witness: legacy sender resolution on a `Tx` row and on a row without
`Tx`, and the core sender of a concrete extracted message. -/
theorem c4_sender_resolution_witness :
    Legacy.emittedSender ["VCU_P", "VCU_E"] fxHdr = "VCU_P" ∧
    Legacy.emittedSender ["VCU_P", "VCU_E"] fxSig = "Vector__XXX" ∧
    (("256", Core.Message.mk "256" "0x100" "EngineStatus" "8" "Vector__XXX") :
      String × Core.Message).2.sender = "Vector__XXX" := by
  refine ⟨?_, ?_, ?_⟩
  · exact (c4_sender_resolution.1 ["VCU_P", "VCU_E"] fxHdr (by decide)).2 "VCU_P" (by decide)
  · exact (c4_sender_resolution.1 ["VCU_P", "VCU_E"] fxSig (by decide)).1 (by decide)
  · exact c4_sender_resolution.2 fxCols [fxHdr] _ (by decide)


/-- C5 counterexample: the label `A_EV` ends with the configuration suffix
`EV`, so the claim's rule excludes it, yet the core handler classifies it as
a node indicator column — its exclusion tests the front part, not the full
label. -/
theorem c5_counterexample :
    Core.isNodeColumn "A_EV" = true ∧ Spec.isNodeIndicator "A_EV" = false := by
  refine ⟨by decide, by decide⟩

/-- C5 amended: the legacy rule is exactly the claim's rule; the core
handler's rule differs in applying the `EV` exclusion to the front part
(text before the last underscore) instead of the full label, so `A_EV` is
included and `AEV_P` excluded by the core rule only.  `LV1_EV` is excluded
and `VCU_P` included by both, as the claim states. -/
theorem c5_node_column_rule :
    (∀ l, Legacy.isNodeColumn l = Spec.isNodeIndicator l) ∧
    (∀ l, Core.isNodeColumn l = Spec.isNodeIndicatorPreEV l) ∧
    Legacy.isNodeColumn "LV1_EV" = false ∧ Core.isNodeColumn "LV1_EV" = false ∧
    Legacy.isNodeColumn "VCU_P" = true ∧ Core.isNodeColumn "VCU_P" = true ∧
    Legacy.isNodeColumn "A_EV" = false ∧ Core.isNodeColumn "A_EV" = true ∧
    Legacy.isNodeColumn "AEV_P" = true ∧ Core.isNodeColumn "AEV_P" = false := by
  exact ⟨legacy_node_rule_eq_spec, core_node_rule_eq_specPreEV, by decide, by decide,
    by decide, by decide, by decide, by decide, by decide, by decide⟩

/-- C6 counterexample: with a mapped start-byte column but an unmapped
start-bit column, a signal row with start byte 2 records start bit `"16"`,
not the documented default `"0"`. -/
theorem c6_counterexample :
    (Core.resolveSigCols fxColsNoStartBit).startBit = none ∧
    (Core.resolveSigCols fxColsNoStartBit).startByte = some "Start Byte\n起始字节" ∧
    ((Core.extractSignals fxColsNoStartBit [fxHdr2, fxSigByteOnly]).map
      fun p => p.2.startBit) = ["16"] ∧
    (("16" : String) == "0") = false := by
  refine ⟨by decide, by decide, by decide, by decide⟩

/-- C6 amended: every field except the start bit carries its documented
default when its column is unmapped or its cell is empty (length 8, byte
order Motorola, value type Unsigned, factor 1.0, offset 0.0, min 0, max 0,
unit empty, receiver `Vector__XXX`, the receiver unconditionally); the start
bit is 0 when both position columns are unmapped or a mapped position cell
is empty, but an unmapped start-bit column combined with a mapped start-byte
cell of value `b` records `b * 8`. -/
theorem c6_signal_defaults :
    ∀ (cfg : Core.SigCols) (row : Row) (name : String),
      ((cfg.length = none ∨ ∃ c, cfg.length = some c ∧ row.get? c = none) →
        Core.sigLength cfg row = "8") ∧
      ((cfg.byteOrder = none ∨ ∃ c, cfg.byteOrder = some c ∧ row.get? c = none) →
        Core.sigByteOrder cfg row = "Motorola") ∧
      ((cfg.valueType = none ∨ ∃ c, cfg.valueType = some c ∧ row.get? c = none) →
        Core.sigValueType cfg row = "Unsigned") ∧
      ((cfg.factor = none ∨ ∃ c, cfg.factor = some c ∧ row.get? c = none) →
        Core.sigFactor cfg row = "1.0") ∧
      ((cfg.offset = none ∨ ∃ c, cfg.offset = some c ∧ row.get? c = none) →
        Core.sigOffset cfg row = "0.0") ∧
      ((cfg.minV = none ∨ ∃ c, cfg.minV = some c ∧ row.get? c = none) →
        Core.sigMin cfg row = "0") ∧
      ((cfg.maxV = none ∨ ∃ c, cfg.maxV = some c ∧ row.get? c = none) →
        Core.sigMax cfg row = "0") ∧
      ((cfg.unit = none ∨ ∃ c, cfg.unit = some c ∧ row.get? c = none) →
        Core.sigUnit cfg row = "") ∧
      (Core.buildSignal cfg row name).receiver = "Vector__XXX" ∧
      (cfg.startByte = none → cfg.startBit = none → Core.sigStartBitVal cfg row = 0) ∧
      (∀ c, cfg.startBit = some c → row.get? c = none → Core.sigStartBitVal cfg row = 0) ∧
      (∀ c, cfg.startByte = some c → row.get? c = none → Core.sigStartBitVal cfg row = 0) ∧
      (∀ c vb qb, cfg.startBit = none → cfg.startByte = some c → row.get? c = some vb →
        pyFloat vb = some qb → Core.sigStartBitVal cfg row = truncQ qb * 8) := by
  intro cfg row name
  refine ⟨?_, ?_, ?_, ?_, ?_, ?_, ?_, ?_, rfl, ?_, ?_, ?_, ?_⟩
  · rintro (h | ⟨c, hc, hcell⟩)
    · simp [Core.sigLength, h]
    · simp [Core.sigLength, hc, hcell]
  · rintro (h | ⟨c, hc, hcell⟩)
    · simp [Core.sigByteOrder, h]
    · simp [Core.sigByteOrder, hc, hcell]
  · rintro (h | ⟨c, hc, hcell⟩)
    · simp [Core.sigValueType, h]
    · simp [Core.sigValueType, hc, hcell]
  · rintro (h | ⟨c, hc, hcell⟩)
    · simp [Core.sigFactor, h]
    · simp [Core.sigFactor, hc, hcell]
  · rintro (h | ⟨c, hc, hcell⟩)
    · simp [Core.sigOffset, h]
    · simp [Core.sigOffset, hc, hcell]
  · rintro (h | ⟨c, hc, hcell⟩)
    · simp [Core.sigMin, h]
    · simp [Core.sigMin, hc, hcell]
  · rintro (h | ⟨c, hc, hcell⟩)
    · simp [Core.sigMax, h]
    · simp [Core.sigMax, hc, hcell]
  · rintro (h | ⟨c, hc, hcell⟩)
    · simp [Core.sigUnit, h]
    · simp [Core.sigUnit, hc, hcell]
  · intro h1 h2
    simp only [Core.sigStartBitVal, Core.getD0, h1, h2]
    decide
  · intro c hbit hcell
    cases hbyte : cfg.startByte with
    | none => simp only [Core.sigStartBitVal, Core.getD0, hbyte, hbit, hcell]
    | some cb =>
      cases hcb : row.get? cb with
      | none => simp only [Core.sigStartBitVal, Core.getD0, hbyte, hbit, hcell, hcb]
      | some vb => simp only [Core.sigStartBitVal, Core.getD0, hbyte, hbit, hcell, hcb]
  · intro c hbyte hcell
    simp only [Core.sigStartBitVal, Core.getD0, hbyte, hcell]
  · intro c vb qb hbit hbyte hcell hq
    have e0 : pyFloat "0" = some (mkRat 0 1) := by decide
    have et : truncQ (mkRat 0 1) = 0 := by decide
    simp only [Core.sigStartBitVal, Core.getD0, hbit, hbyte, hcell, hq, e0, et,
      Int.add_zero]

/-- C6 witness: defaults on a concrete row without factor and unit columns,
and the start-bit deviation `2 * 8 = 16` on the same fixture. -/
theorem c6_signal_defaults_witness :
    Core.sigFactor (Core.resolveSigCols fxColsNoStartBit) fxSigByteOnly = "1.0" ∧
    Core.sigUnit (Core.resolveSigCols fxColsNoStartBit) fxSigByteOnly = "" ∧
    Core.sigStartBitVal (Core.resolveSigCols fxColsNoStartBit) fxSigByteOnly = 16 := by
  refine ⟨?_, ?_, ?_⟩
  · exact (c6_signal_defaults _ fxSigByteOnly "S").2.2.2.1 (Or.inl (by decide))
  · exact (c6_signal_defaults _ fxSigByteOnly "S").2.2.2.2.2.2.2.1 (Or.inl (by decide))
  · have h := (c6_signal_defaults (Core.resolveSigCols fxColsNoStartBit) fxSigByteOnly
      "S").2.2.2.2.2.2.2.2.2.2.2.2 "Start Byte\n起始字节" "2" (mkRat 2 1)
      (by decide) (by decide) (by decide) (by decide)
    simpa using h

set_option maxRecDepth 400000 in
/-- C7 counterexample: the core generator applies no post-processing before
writing, so the artifact generated from a matrix whose unit cell holds `Ω`
contains the non-ASCII character `Ω` itself — the ASCII-only invariant fails
for this generated artifact. -/
theorem c7_counterexample :
    ((Core.artifactContent false fxCols [fxHdr, fxSig] ["VCU_P"]).data.any
      fun c => 128 ≤ c.toNat) = true ∧
    'Ω' ∈ (Core.artifactContent false fxCols [fxHdr, fxSig] ["VCU_P"]).data := by
  refine ⟨by decide, by decide⟩

/-- C7 amended: the post-processing of the legacy generator guarantees the
claim — only ASCII characters remain, every carriage return is eliminated
(`\r\n` and `\r` become `\n`), `Ω` is transliterated to `Ohm` and every
other non-ASCII character is dropped; the core generator writes its artifact
without any such post-processing. -/
theorem c7_postprocess_ascii :
    (∀ s, ((Legacy.postProcess s).data.all fun c => c.toNat < 128) = true) ∧
    (∀ s, ((Legacy.postProcess s).data.contains '\r') = false) ∧
    Legacy.postProcess "a\r\nbΩc中d" = "a\nbOhmcd" ∧
    Legacy.ensureAscii "Ω" = "Ohm" ∧
    Legacy.ensureAscii "中文" = "" := by
  refine ⟨fun s => ensureAscii_ascii _, fun s => ?_, by decide, by decide, by decide⟩
  have h := postProcess_no_cr s
  simpa using h

/-- C8: the numeric formatting function renders 8.000 as `"8"` and 0.1 as
`"0.1"`; it renders 1.0005 as `"1"` (three-decimal rounding, then trailing
zeros and the trailing point stripped — one of the two results the claim
admits); every integral value is rendered with no fractional part; and
every non-integral value is rendered with at most 3 decimal digits, with
trailing zeros and a trailing decimal point stripped: the result never
ends in a point, and never ends in a zero while a decimal point
remains. -/
theorem c8_format_num :
    Legacy.formatNum (mkRat 8000 1000) = "8" ∧
    Legacy.formatNum (mkRat 1 10) = "0.1" ∧
    Legacy.formatNum (mkRat 10005 10000) = "1" ∧
    (∀ n : ℤ, Legacy.formatNum (n : ℚ) = toString n) ∧
    (∀ q : ℚ, q.den ≠ 1 →
      fracDigitCount (Legacy.formatNum q) ≤ 3 ∧
      endsInChar (Legacy.formatNum q) '.' = false ∧
      ((Legacy.formatNum q).data.contains '.' = true →
        endsInChar (Legacy.formatNum q) '0' = false)) := by
  refine ⟨by decide, by decide, by decide, ?_, formatNum_nonintegral_shape⟩
  intro n
  simp [Legacy.formatNum, Rat.den_intCast, Rat.num_intCast]

/-- C8 witness: the universal non-integral clause instantiated at 0.1 —
one decimal digit remains, no trailing point, no trailing zero. -/
theorem c8_format_num_witness :
    fracDigitCount (Legacy.formatNum (mkRat 1 10)) ≤ 3 ∧
    endsInChar (Legacy.formatNum (mkRat 1 10)) '.' = false ∧
    endsInChar (Legacy.formatNum (mkRat 1 10)) '0' = false := by
  have h := c8_format_num.2.2.2.2 (mkRat 1 10) (by decide)
  exact ⟨h.1, h.2.1, h.2.2 (by decide)⟩

/-- C9: for a matrix whose node indicator columns are `VCU_P` and `VCU_E`,
each with at least one non-empty cell, one generation run produces exactly
the two artifacts `<base>_PCAN.dbc` and `<base>_ECAN.dbc`; and every
generated bus suffix comes from a node column with at least one non-empty
cell, so no artifact is produced for a suffix all of whose node columns are
empty. -/
theorem c9_bus_partition :
    (∀ (base : String) (rows : List Row),
      (rows.any fun r => (r.get? "VCU_P").isSome) = true →
      (rows.any fun r => (r.get? "VCU_E").isSome) = true →
      Core.outputFiles base ["VCU_P", "VCU_E"] rows =
        [base ++ "_PCAN.dbc", base ++ "_ECAN.dbc"]) ∧
    (∀ (nodeCols : List String) (rows : List Row) (b : String),
      b ∈ Core.validBusTypes nodeCols rows →
      ∃ col ∈ nodeCols, (rows.any fun r => (r.get? col).isSome) = true ∧
        (pySplitU col).getLastD "" = b) := by
  exact ⟨outputFiles_PE, mem_validBusTypes⟩

/-- C9 witness: the two-artifact run on a concrete matrix, and the
data-backing property instantiated for suffix `P`. -/
theorem c9_bus_partition_witness :
    Core.outputFiles "matrix" ["VCU_P", "VCU_E"] [fxHdr, fxSig] =
      ["matrix_PCAN.dbc", "matrix_ECAN.dbc"] ∧
    ∃ col ∈ (["VCU_P"] : List String),
      (([fxHdr] : List Row).any fun r => (r.get? col).isSome) = true ∧
      (pySplitU col).getLastD "" = "P" := by
  constructor
  · rw [c9_bus_partition.1 "matrix" [fxHdr, fxSig] (by decide) (by decide)]
    rfl
  · exact c9_bus_partition.2 ["VCU_P"] [fxHdr] "P" (by decide)

/-- C10: within one run of the core generator the written content is
byte-identical for every bus type — the bus type only determines the output
file name; nodes, messages and signals are not filtered by bus. -/
theorem c10_bus_independent_content :
    ∀ (b1 b2 outputBase : String) (isCanfd : Bool) (cols : List String)
      (rows : List Row) (nodeCols : List String),
      (Core.artifact b1 outputBase isCanfd cols rows nodeCols).2 =
        (Core.artifact b2 outputBase isCanfd cols rows nodeCols).2 ∧
      (Core.artifact b1 outputBase isCanfd cols rows nodeCols).1 =
        outputBase ++ "_" ++ b1 ++ "CAN.dbc" := by
  intro b1 b2 outputBase isCanfd cols rows nodeCols
  exact ⟨rfl, rfl⟩


end DBCGen
